import Mathlib

/-
Verification of the Kafka sink connector core of the parseable repository
(`src/connectors/kafka/processor.rs`): the `ParseableSinkProcessor`
record-to-event conversion pipeline and the `StreamWorker` per-partition
batch/commit protocol.

External collaborators (stream provisioning, schema lookup, JSON decoding,
record-batch conversion, the storage write, the broker commit, and the
end-of-stream hook) are modelled as oracle functions gathered in an `Env`.
Opaque data produced by collaborators (schemas, decoded JSON values, Arrow
record batches) is modelled by abstract tokens.  Every modelled operation
additionally records the collaborator calls it makes, as a `List Call`
trace, so that claims about which collaborators are (not) invoked, how
often, and in which order can be stated and proved.

`StreamWorker::process_partition` dispatches each chunk with
`for_each_concurrent`; the per-chunk body is strictly sequential inside
one chunk, and `post_stream` runs only after every chunk body finished.
The model iterates the chunk bodies in order, which preserves exactly the
per-chunk call structure and the all-chunks-before-`post_stream` ordering
that the claims below are about (no claim concerns cross-chunk
interleaving).  The `.unwrap()` panic path is modelled by `Option`:
`none` is a panic aborting the worker task.
-/

set_option autoImplicit false

namespace Parseable

/-- Raw bytes (a Kafka payload or key) are modelled as a list of byte values. -/
abbrev Bytes := List Nat

/-- Errors (`anyhow::Error` in the source) are modelled as strings. -/
abbrev Err := String

/-- An opaque schema token, the result of `STREAM_INFO.schema_raw`. -/
abbrev Schema := Nat

/-- An opaque decoded JSON value, the result of `serde_json::from_slice`. -/
abbrev JsonValue := Nat

/-- An opaque Arrow record batch, the result of `Event::into_recordbatch`. -/
abbrev RecordBatch := Nat

/-- Stream classification (`crate::storage::StreamType`). -/
inductive StreamType
  | UserDefined
  | Internal
deriving DecidableEq, Repr

/-- Display form of a `StreamType`, as used for `StreamType::UserDefined.to_string()`. -/
def StreamType.toString : StreamType → String
  | .UserDefined => "UserDefined"
  | .Internal => "Internal"

/-- One broker message (`ConsumerRecord` in `src/connectors/kafka`):
topic, partition, offset, optional key, optional payload. -/
structure ConsumerRecord where
  topic : String
  partition : Int
  offset : Int
  key : Option Bytes
  payload : Option Bytes
deriving DecidableEq, Repr

/-- The commit target handed to the broker commit: the spec's `CommitTarget`,
realised in the source as the `TopicPartitionList` built by
`ConsumerRecord::offset_to_commit`. -/
structure CommitTarget where
  topic : String
  partition : Int
  offset : Int
deriving DecidableEq, Repr

/-- The converted storage-ready unit (`crate::event::Event`), with the fields
set by `ParseableSinkProcessor::deserialize`. -/
structure PEvent where
  rb : RecordBatch
  stream_name : String
  origin_format : String
  origin_size : Nat
  is_first_event : Bool
  parsed_timestamp : Nat
  time_partition : Option String
  custom_partition_values : List (String × String)
  stream_type : StreamType
deriving DecidableEq, Repr

/-- A collaborator call made by the modelled code, recorded in traces:
stream creation, schema lookup, payload decode, record-batch conversion,
the storage write (`event.process()`), entry into `Processor::process`
for a batch of a given length, the broker commit attempt, and the
end-of-stream hook (`post_stream`). -/
inductive Call
  | createStream (stream : String) (streamType : String)
  | schemaLookup (stream : String)
  | decode (payload : Bytes)
  | convert (data : JsonValue) (schema : Schema)
  | store (e : PEvent)
  | processBatch (len : Nat)
  | commit (tpl : CommitTarget)
  | postStream
deriving DecidableEq, Repr

/-- The environment of external collaborators, each a function that may fail:
`create_stream_if_not_exists`, `STREAM_INFO.schema_raw`,
`serde_json::from_slice`, `Event::into_recordbatch`, `event.process()`
(the storage collaborator), the broker `commit`, the processor's
`post_stream` hook, `ConsumerRecord::offset_to_commit` (kept as a
parameter because its Rust signature is the fallible
`KafkaResult<TopicPartitionList>`; its implementation lives outside the
core file and is modelled separately by
`ConsumerRecord.offset_to_commit`), and the current time `Utc::now()`. -/
structure Env where
  create_stream_if_not_exists : String → String → Except Err Unit
  schema_raw : String → Except Err Schema
  from_slice : Bytes → Except Err JsonValue
  into_recordbatch : JsonValue → Schema → Except Err (RecordBatch × Bool)
  event_process : PEvent → Except Err Unit
  commit : CommitTarget → Except Err Unit
  post_stream : Except Err Unit
  offset_to_commit : ConsumerRecord → Except Err CommitTarget
  now : Nat

/-- Modelled from the spec: `ConsumerRecord::offset_to_commit` is defined in
`src/connectors/kafka/mod.rs`, which is not among the provided sources;
only its call site in `StreamWorker::process_partition` is.  Per the
spec, the commit target is "the offset to mark as next to read, derived
as `max(offset in batch) + 1`"; applied to the single maximum-offset
record the worker selects, this is the record's topic and partition with
its offset plus one. -/
def ConsumerRecord.offset_to_commit (cr : ConsumerRecord) : Except Err CommitTarget :=
  .ok { topic := cr.topic, partition := cr.partition, offset := cr.offset + 1 }

/-- Model of `ParseableSinkProcessor::deserialize`: ensure the stream named
by the record's topic exists, fetch its raw schema, then either skip a
tombstone (absent payload) or decode the payload, convert it against the
schema, and build the `Event` with its metadata.  Returns the trace of
collaborator calls together with the result. -/
def deserialize (env : Env) (cr : ConsumerRecord) :
    List Call × Except Err (Option PEvent) :=
  let stream_name := cr.topic
  match env.create_stream_if_not_exists stream_name StreamType.UserDefined.toString with
  | .error e =>
      ([Call.createStream stream_name StreamType.UserDefined.toString], .error e)
  | .ok _ =>
    match env.schema_raw stream_name with
    | .error e =>
        ([Call.createStream stream_name StreamType.UserDefined.toString,
          Call.schemaLookup stream_name], .error e)
    | .ok schema =>
      match cr.payload with
      | none =>
          ([Call.createStream stream_name StreamType.UserDefined.toString,
            Call.schemaLookup stream_name], .ok none)
      | some payload =>
        match env.from_slice payload with
        | .error e =>
            ([Call.createStream stream_name StreamType.UserDefined.toString,
              Call.schemaLookup stream_name, Call.decode payload], .error e)
        | .ok data =>
          match env.into_recordbatch data schema with
          | .error e =>
              ([Call.createStream stream_name StreamType.UserDefined.toString,
                Call.schemaLookup stream_name, Call.decode payload,
                Call.convert data schema], .error e)
          | .ok (record_batch, is_first) =>
              ([Call.createStream stream_name StreamType.UserDefined.toString,
                Call.schemaLookup stream_name, Call.decode payload,
                Call.convert data schema],
               .ok (some
                 { rb := record_batch
                   stream_name := stream_name
                   origin_format := "json"
                   origin_size := payload.length
                   is_first_event := is_first
                   parsed_timestamp := env.now
                   time_partition := none
                   custom_partition_values := []
                   stream_type := StreamType.UserDefined }))

/-- The record loop of `ParseableSinkProcessor::process`: for each record in
order, `deserialize` it; a `Some` event is handed to
`event.process()`; any error (`?`) aborts the remaining records and is
returned as the batch's result. -/
def processRecords (env : Env) : List ConsumerRecord → List Call × Except Err Unit
  | [] => ([], .ok ())
  | cr :: rest =>
    match (deserialize env cr).2 with
    | .error e => ((deserialize env cr).1, .error e)
    | .ok none =>
      ((deserialize env cr).1 ++ (processRecords env rest).1, (processRecords env rest).2)
    | .ok (some event) =>
      match env.event_process event with
      | .error e => ((deserialize env cr).1 ++ [Call.store event], .error e)
      | .ok _ =>
        ((deserialize env cr).1 ++ [Call.store event] ++ (processRecords env rest).1,
         (processRecords env rest).2)

/-- Model of `ParseableSinkProcessor::process` (the `Processor` trait method):
the record loop, with the batch entry marked in the trace. -/
def process (env : Env) (records : List ConsumerRecord) : List Call × Except Err Unit :=
  (Call.processBatch records.length :: (processRecords env records).1,
   (processRecords env records).2)

/-- Tail of Rust's `iter().max_by_key(|r| r.offset)`: fold keeping the
current maximum, replacing it on ties so that the last maximal element
wins, as `max_by_key` specifies. -/
def maxByOffsetAux (acc : ConsumerRecord) : List ConsumerRecord → ConsumerRecord
  | [] => acc
  | r :: rs => maxByOffsetAux (if acc.offset ≤ r.offset then r else acc) rs

/-- Model of `records.iter().max_by_key(|r| r.offset)`: `none` on an empty
list, otherwise the last record of maximal offset. -/
def maxByOffset : List ConsumerRecord → Option ConsumerRecord
  | [] => none
  | r :: rs => some (maxByOffsetAux r rs)

/-- The per-chunk closure body of `for_each_concurrent` in
`StreamWorker::process_partition`: if the chunk has a maximum-offset
record, compute the commit target via `offset_to_commit().unwrap()`
(`none` models the panic when it errs), run `Processor::process` on the
chunk (its error is logged, not propagated), then attempt the
synchronous broker commit (its error is logged, not propagated).
An empty chunk does nothing. -/
def dispatchChunk (env : Env) (records : List ConsumerRecord) : Option (List Call) :=
  match maxByOffset records with
  | none => some []
  | some last_record =>
    match env.offset_to_commit last_record with
    | .error _ => none
    | .ok tpl => some ((process env records).1 ++ [Call.commit tpl])

/-- The chunk loop of `StreamWorker::process_partition`: dispatch each chunk
in turn; a panic (`none`) aborts the worker task. -/
def runChunks (env : Env) : List (List ConsumerRecord) → Option (List Call)
  | [] => some []
  | c :: rest =>
    match dispatchChunk env c with
    | none => none
    | some t =>
      match runChunks env rest with
      | none => none
      | some t2 => some (t ++ t2)

/-- Model of `StreamWorker::process_partition`, applied to the list of
chunks produced by `chunks_timeout`: run every chunk body, then invoke
`post_stream` once; `post_stream`'s error is propagated (`?`) as the
worker's result, which is otherwise `Ok(())`.  `none` models a panic. -/
def process_partition (env : Env) (chunks : List (List ConsumerRecord)) :
    Option (List Call × Except Err Unit) :=
  match runChunks env chunks with
  | none => none
  | some t => some (t ++ [Call.postStream], env.post_stream)

/-- Whether a call is the provisioning collaborator's create-if-absent call. -/
def Call.isCreateStream : Call → Bool
  | .createStream _ _ => true
  | _ => false

/-- Whether a call is the storage collaborator's write (`event.process()`). -/
def Call.isStore : Call → Bool
  | .store _ => true
  | _ => false

/-- Whether a call is one made from inside `ParseableSinkProcessor` while
processing a batch (as opposed to the worker-level commit, batch entry
marker, and end-of-stream hook). -/
def Call.isRecordCall : Call → Bool
  | .createStream _ _ => true
  | .schemaLookup _ => true
  | .decode _ => true
  | .convert _ _ => true
  | .store _ => true
  | _ => false

/-- The event built by the success branch of `deserialize`. -/
def builtEvent (env : Env) (cr : ConsumerRecord) (p : Bytes)
    (record_batch : RecordBatch) (is_first : Bool) : PEvent :=
  { rb := record_batch
    stream_name := cr.topic
    origin_format := "json"
    origin_size := p.length
    is_first_event := is_first
    parsed_timestamp := env.now
    time_partition := none
    custom_partition_values := []
    stream_type := StreamType.UserDefined }

/-! ### Concrete fixtures used by the witnesses -/

/-- A record with a present payload (one byte), offset 10. -/
def recA : ConsumerRecord :=
  { topic := "t1", partition := 0, offset := 10, key := none, payload := some [49] }

/-- A second record with a present payload, offset 11. -/
def recB : ConsumerRecord :=
  { topic := "t1", partition := 0, offset := 11, key := none, payload := some [50] }

/-- A tombstone record (absent payload), offset 12. -/
def recTomb : ConsumerRecord :=
  { topic := "t1", partition := 0, offset := 12, key := none, payload := none }

/-- An environment in which every collaborator succeeds. -/
def okEnv : Env :=
  { create_stream_if_not_exists := fun _ _ => .ok ()
    schema_raw := fun _ => .ok 0
    from_slice := fun _ => .ok 7
    into_recordbatch := fun _ _ => .ok (3, true)
    event_process := fun _ => .ok ()
    commit := fun _ => .ok ()
    post_stream := .ok ()
    offset_to_commit := ConsumerRecord.offset_to_commit
    now := 42 }

/-- An environment whose storage collaborator always fails. -/
def storeFailEnv : Env := { okEnv with event_process := fun _ => .error "StoreError" }

/-- An environment whose provisioning collaborator always fails. -/
def provisionFailEnv : Env :=
  { okEnv with create_stream_if_not_exists := fun _ _ => .error "ProvisioningError" }

/-- An environment whose `offset_to_commit` always fails. -/
def otcFailEnv : Env :=
  { okEnv with offset_to_commit := fun _ => .error "KafkaError" }

/-- The event built from `recA` under `okEnv`. -/
def evA : PEvent := builtEvent okEnv recA [49] 3 true

/-- The full worker trace for the single chunk `[recA]` under `okEnv`. -/
def traceA : List Call :=
  [Call.processBatch 1, Call.createStream "t1" "UserDefined", Call.schemaLookup "t1",
   Call.decode [49], Call.convert 7 0, Call.store evA,
   Call.commit { topic := "t1", partition := 0, offset := 11 }, Call.postStream]


/-! ### Lemmas about `max_by_key` -/

/-- The fold of `maxByOffsetAux` returns its accumulator or a list element. -/
lemma maxByOffsetAux_mem (acc : ConsumerRecord) (rs : List ConsumerRecord) :
    maxByOffsetAux acc rs = acc ∨ maxByOffsetAux acc rs ∈ rs := by
  induction rs generalizing acc with
  | nil => left; rfl
  | cons r rs ih =>
    simp only [maxByOffsetAux]
    rcases ih (if acc.offset ≤ r.offset then r else acc) with h | h
    · rw [h]
      split
      · right; simp
      · left; rfl
    · right; exact List.mem_cons_of_mem r h

/-- The fold of `maxByOffsetAux` dominates its accumulator and every element. -/
lemma maxByOffsetAux_ge (acc : ConsumerRecord) (rs : List ConsumerRecord) :
    acc.offset ≤ (maxByOffsetAux acc rs).offset ∧
      ∀ r ∈ rs, r.offset ≤ (maxByOffsetAux acc rs).offset := by
  induction rs generalizing acc with
  | nil => exact ⟨le_refl _, by simp⟩
  | cons r rs ih =>
    simp only [maxByOffsetAux]
    obtain ⟨h1, h2⟩ := ih (if acc.offset ≤ r.offset then r else acc)
    constructor
    · refine le_trans ?_ h1
      split
      · assumption
      · exact le_refl _
    · intro x hx
      rcases List.mem_cons.mp hx with rfl | hx
      · refine le_trans ?_ h1
        split
        · exact le_refl _
        · omega
      · exact h2 x hx

/-- The record selected by `max_by_key` belongs to the chunk. -/
lemma maxByOffset_mem {rs : List ConsumerRecord} {m : ConsumerRecord}
    (h : maxByOffset rs = some m) : m ∈ rs := by
  cases rs with
  | nil => simp [maxByOffset] at h
  | cons r rs =>
    simp only [maxByOffset, Option.some.injEq] at h
    subst h
    rcases maxByOffsetAux_mem r rs with h | h
    · rw [h]; exact List.mem_cons_self r rs
    · exact List.mem_cons_of_mem r h

/-- The record selected by `max_by_key` has maximal offset in the chunk. -/
lemma maxByOffset_ge {rs : List ConsumerRecord} {m : ConsumerRecord}
    (h : maxByOffset rs = some m) : ∀ r ∈ rs, r.offset ≤ m.offset := by
  cases rs with
  | nil => simp [maxByOffset] at h
  | cons r rs =>
    simp only [maxByOffset, Option.some.injEq] at h
    subst h
    intro x hx
    rcases List.mem_cons.mp hx with rfl | hx
    · exact (maxByOffsetAux_ge x rs).1
    · exact (maxByOffsetAux_ge r rs).2 x hx

/-! ### Equation lemmas for `deserialize`, one per collaborator outcome -/

/-- `deserialize` when stream provisioning fails. -/
lemma deserialize_provision_error (env : Env) (cr : ConsumerRecord) (e : Err)
    (h1 : env.create_stream_if_not_exists cr.topic StreamType.UserDefined.toString
      = .error e) :
    deserialize env cr =
      ([Call.createStream cr.topic StreamType.UserDefined.toString], .error e) := by
  simp [deserialize, h1]

/-- `deserialize` when the schema lookup fails. -/
lemma deserialize_schema_error (env : Env) (cr : ConsumerRecord) (u : Unit) (e : Err)
    (h1 : env.create_stream_if_not_exists cr.topic StreamType.UserDefined.toString
      = .ok u)
    (h2 : env.schema_raw cr.topic = .error e) :
    deserialize env cr =
      ([Call.createStream cr.topic StreamType.UserDefined.toString,
        Call.schemaLookup cr.topic], .error e) := by
  simp [deserialize, h1, h2]

/-- `deserialize` on a tombstone (absent payload): skip after the two
provisioning calls, producing no event and no error. -/
lemma deserialize_tombstone (env : Env) (cr : ConsumerRecord) (u : Unit) (s : Schema)
    (h1 : env.create_stream_if_not_exists cr.topic StreamType.UserDefined.toString
      = .ok u)
    (h2 : env.schema_raw cr.topic = .ok s)
    (hp : cr.payload = none) :
    deserialize env cr =
      ([Call.createStream cr.topic StreamType.UserDefined.toString,
        Call.schemaLookup cr.topic], .ok none) := by
  simp [deserialize, h1, h2, hp]

/-- `deserialize` when JSON decoding of a present payload fails. -/
lemma deserialize_decode_error (env : Env) (cr : ConsumerRecord) (u : Unit)
    (s : Schema) (p : Bytes) (e : Err)
    (h1 : env.create_stream_if_not_exists cr.topic StreamType.UserDefined.toString
      = .ok u)
    (h2 : env.schema_raw cr.topic = .ok s)
    (hp : cr.payload = some p)
    (h3 : env.from_slice p = .error e) :
    deserialize env cr =
      ([Call.createStream cr.topic StreamType.UserDefined.toString,
        Call.schemaLookup cr.topic, Call.decode p], .error e) := by
  simp [deserialize, h1, h2, hp, h3]

/-- `deserialize` when record-batch conversion fails. -/
lemma deserialize_convert_error (env : Env) (cr : ConsumerRecord) (u : Unit)
    (s : Schema) (p : Bytes) (d : JsonValue) (e : Err)
    (h1 : env.create_stream_if_not_exists cr.topic StreamType.UserDefined.toString
      = .ok u)
    (h2 : env.schema_raw cr.topic = .ok s)
    (hp : cr.payload = some p)
    (h3 : env.from_slice p = .ok d)
    (h4 : env.into_recordbatch d s = .error e) :
    deserialize env cr =
      ([Call.createStream cr.topic StreamType.UserDefined.toString,
        Call.schemaLookup cr.topic, Call.decode p, Call.convert d s], .error e) := by
  simp [deserialize, h1, h2, hp, h3, h4]

/-- `deserialize` when every step succeeds: the built event is returned. -/
lemma deserialize_ok (env : Env) (cr : ConsumerRecord) (u : Unit)
    (s : Schema) (p : Bytes) (d : JsonValue) (record_batch : RecordBatch)
    (is_first : Bool)
    (h1 : env.create_stream_if_not_exists cr.topic StreamType.UserDefined.toString
      = .ok u)
    (h2 : env.schema_raw cr.topic = .ok s)
    (hp : cr.payload = some p)
    (h3 : env.from_slice p = .ok d)
    (h4 : env.into_recordbatch d s = .ok (record_batch, is_first)) :
    deserialize env cr =
      ([Call.createStream cr.topic StreamType.UserDefined.toString,
        Call.schemaLookup cr.topic, Call.decode p, Call.convert d s],
       .ok (some (builtEvent env cr p record_batch is_first))) := by
  simp [deserialize, h1, h2, hp, h3, h4, builtEvent]

/-! ### Trace lemmas for `deserialize` and the record loop -/

/-- Every call recorded by `deserialize` is a per-record collaborator call,
and none of them is the storage write. -/
lemma deserialize_trace_forms (env : Env) (cr : ConsumerRecord) :
    ∀ c ∈ (deserialize env cr).1, c.isRecordCall = true ∧ c.isStore = false := by
  rcases h1 : env.create_stream_if_not_exists cr.topic StreamType.UserDefined.toString
    with e | u
  · rw [deserialize_provision_error env cr e h1]
    intro c hc
    simp only [List.mem_singleton] at hc
    subst hc
    exact ⟨rfl, rfl⟩
  · rcases h2 : env.schema_raw cr.topic with e | s
    · rw [deserialize_schema_error env cr u e h1 h2]
      intro c hc
      simp only [List.mem_cons, List.mem_singleton, List.not_mem_nil, or_false] at hc
      rcases hc with rfl | rfl <;> exact ⟨rfl, rfl⟩
    · rcases hp : cr.payload with _ | p
      · rw [deserialize_tombstone env cr u s h1 h2 hp]
        intro c hc
        simp only [List.mem_cons, List.mem_singleton, List.not_mem_nil, or_false] at hc
        rcases hc with rfl | rfl <;> exact ⟨rfl, rfl⟩
      · rcases h3 : env.from_slice p with e | d
        · rw [deserialize_decode_error env cr u s p e h1 h2 hp h3]
          intro c hc
          simp only [List.mem_cons, List.not_mem_nil, or_false] at hc
          rcases hc with rfl | rfl | rfl <;> exact ⟨rfl, rfl⟩
        · rcases h4 : env.into_recordbatch d s with e | rbf
          · rw [deserialize_convert_error env cr u s p d e h1 h2 hp h3 h4]
            intro c hc
            simp only [List.mem_cons, List.not_mem_nil, or_false] at hc
            rcases hc with rfl | rfl | rfl | rfl <;> exact ⟨rfl, rfl⟩
          · obtain ⟨record_batch, is_first⟩ := rbf
            rw [deserialize_ok env cr u s p d record_batch is_first h1 h2 hp h3 h4]
            intro c hc
            simp only [List.mem_cons, List.not_mem_nil, or_false] at hc
            rcases hc with rfl | rfl | rfl | rfl <;> exact ⟨rfl, rfl⟩

/-- `deserialize` issues the provisioning create-if-absent call exactly once,
whatever the record's payload and the collaborators' outcomes. -/
lemma deserialize_countCreate (env : Env) (cr : ConsumerRecord) :
    (deserialize env cr).1.countP (fun c => c.isCreateStream) = 1 := by
  rcases h1 : env.create_stream_if_not_exists cr.topic StreamType.UserDefined.toString
    with e | u
  · rw [deserialize_provision_error env cr e h1]; rfl
  · rcases h2 : env.schema_raw cr.topic with e | s
    · rw [deserialize_schema_error env cr u e h1 h2]; rfl
    · rcases hp : cr.payload with _ | p
      · rw [deserialize_tombstone env cr u s h1 h2 hp]; rfl
      · rcases h3 : env.from_slice p with e | d
        · rw [deserialize_decode_error env cr u s p e h1 h2 hp h3]; rfl
        · rcases h4 : env.into_recordbatch d s with e | rbf
          · rw [deserialize_convert_error env cr u s p d e h1 h2 hp h3 h4]; rfl
          · obtain ⟨record_batch, is_first⟩ := rbf
            rw [deserialize_ok env cr u s p d record_batch is_first h1 h2 hp h3 h4]; rfl

/-- A tombstone record deserializes to "no event" or to a provisioning or
schema-lookup error; never to an event. -/
lemma deserialize_tombstone_res (env : Env) (cr : ConsumerRecord)
    (hp : cr.payload = none) :
    (deserialize env cr).2 = .ok none ∨ ∃ e, (deserialize env cr).2 = .error e := by
  rcases h1 : env.create_stream_if_not_exists cr.topic StreamType.UserDefined.toString
    with e | u
  · right; exact ⟨e, by rw [deserialize_provision_error env cr e h1]⟩
  · rcases h2 : env.schema_raw cr.topic with e | s
    · right; exact ⟨e, by rw [deserialize_schema_error env cr u e h1 h2]⟩
    · left; rw [deserialize_tombstone env cr u s h1 h2 hp]

/-- Every call recorded by the record loop is a per-record collaborator
call; in particular it is never a commit, batch marker, or end-of-stream
call. -/
lemma processRecords_calls (env : Env) (rs : List ConsumerRecord) :
    ∀ c ∈ (processRecords env rs).1, c.isRecordCall = true := by
  induction rs with
  | nil =>
    intro c hc
    simp [processRecords] at hc
  | cons cr rest ih =>
    intro c hc
    rcases hd : (deserialize env cr).2 with e | oe
    · simp only [processRecords, hd] at hc
      exact (deserialize_trace_forms env cr c hc).1
    · rcases oe with _ | ev
      · simp only [processRecords, hd, List.mem_append] at hc
        rcases hc with h | h
        · exact (deserialize_trace_forms env cr c h).1
        · exact ih c h
      · rcases hs : env.event_process ev with e | u
        · simp only [processRecords, hd, hs, List.mem_append,
            List.mem_singleton] at hc
          rcases hc with h | rfl
          · exact (deserialize_trace_forms env cr c h).1
          · rfl
        · simp only [processRecords, hd, hs, List.mem_append,
            List.mem_singleton] at hc
          rcases hc with (h | rfl) | h
          · exact (deserialize_trace_forms env cr c h).1
          · rfl
          · exact ih c h

/-- Once the records processed so far have failed, the remaining records of
the batch contribute nothing: the record loop on `pre ++ post` coincides
with the record loop on `pre` alone, calls and result alike. -/
lemma processRecords_fail_fast (env : Env) (pre post : List ConsumerRecord) (e : Err)
    (h : (processRecords env pre).2 = .error e) :
    processRecords env (pre ++ post) = processRecords env pre := by
  induction pre with
  | nil => simp [processRecords] at h
  | cons cr rest ih =>
    rw [List.cons_append]
    rcases hd : (deserialize env cr).2 with e2 | oe
    · simp only [processRecords, hd]
    · rcases oe with _ | ev
      · simp only [processRecords, hd] at h ⊢
        rw [ih h]
      · rcases hs : env.event_process ev with e2 | u
        · simp only [processRecords, hd, hs]
        · simp only [processRecords, hd, hs] at h ⊢
          rw [ih h]

/-- A batch whose record loop succeeds issued the provisioning
create-if-absent call exactly once per record. -/
lemma processRecords_ok_countCreate (env : Env) (rs : List ConsumerRecord)
    (h : (processRecords env rs).2 = .ok ()) :
    (processRecords env rs).1.countP (fun c => c.isCreateStream) = rs.length := by
  induction rs with
  | nil => simp [processRecords]
  | cons cr rest ih =>
    rcases hd : (deserialize env cr).2 with e | oe
    · simp only [processRecords, hd] at h
      exact Except.noConfusion h
    · rcases oe with _ | ev
      · simp only [processRecords, hd] at h ⊢
        rw [List.countP_append, deserialize_countCreate, ih h]
        simp [Nat.add_comm]
      · rcases hs : env.event_process ev with e | u
        · simp only [processRecords, hd, hs] at h
          exact Except.noConfusion h
        · simp only [processRecords, hd, hs] at h ⊢
          rw [List.countP_append, List.countP_append, deserialize_countCreate, ih h]
          simp [Call.isCreateStream]
          omega

/-- `Processor::process` never records a broker commit call. -/
lemma process_no_commit (env : Env) (rs : List ConsumerRecord) (tpl : CommitTarget) :
    Call.commit tpl ∉ (process env rs).1 := by
  intro hmem
  simp only [process, List.mem_cons] at hmem
  rcases hmem with h | h
  · exact Call.noConfusion h
  · have hr := processRecords_calls env rs _ h
    simp [Call.isRecordCall] at hr

/-- `Processor::process` never records the end-of-stream hook call. -/
lemma process_no_postStream (env : Env) (rs : List ConsumerRecord) :
    Call.postStream ∉ (process env rs).1 := by
  intro hmem
  simp only [process, List.mem_cons] at hmem
  rcases hmem with h | h
  · exact Call.noConfusion h
  · have hr := processRecords_calls env rs _ h
    simp [Call.isRecordCall] at hr

/-- A chunk body that does not panic never records the end-of-stream hook. -/
lemma dispatchChunk_no_postStream (env : Env) (rs : List ConsumerRecord)
    (t : List Call) (h : dispatchChunk env rs = some t) : Call.postStream ∉ t := by
  rcases hm : maxByOffset rs with _ | last_record
  · simp only [dispatchChunk, hm, Option.some.injEq] at h
    subst h
    simp
  · rcases ho : env.offset_to_commit last_record with e | tpl
    · simp only [dispatchChunk, hm, ho] at h
      exact Option.noConfusion h
    · simp only [dispatchChunk, hm, ho, Option.some.injEq] at h
      subst h
      intro hmem
      rcases List.mem_append.mp hmem with h2 | h2
      · exact process_no_postStream env rs h2
      · simp at h2

/-- The chunk loop never records the end-of-stream hook; `post_stream` is
appended only once, afterwards, by `process_partition`. -/
lemma runChunks_no_postStream (env : Env) (chunks : List (List ConsumerRecord)) :
    ∀ t, runChunks env chunks = some t → Call.postStream ∉ t := by
  induction chunks with
  | nil =>
    intro t h
    simp only [runChunks, Option.some.injEq] at h
    subst h
    simp
  | cons c rest ih =>
    intro t h
    unfold runChunks at h
    rcases hd : dispatchChunk env c with _ | t1
    · rw [hd] at h
      exact Option.noConfusion h
    · rw [hd] at h
      rcases hr : runChunks env rest with _ | t2
      · rw [hr] at h
        exact Option.noConfusion h
      · rw [hr] at h
        simp only [Option.some.injEq] at h
        subst h
        intro hmem
        rcases List.mem_append.mp hmem with h2 | h2
        · exact dispatchChunk_no_postStream env c t1 hd h2
        · exact ih t2 hr h2

/-! ### Claim theorems -/

/-- C1: for every non-empty batch dispatched by the partition worker (one
whose `max_by_key` selects a record and whose commit target computes), the
synchronous broker commit for that batch's commit target is attempted even
when `Processor::process` for the batch returns an error: the chunk body
still records the commit attempt right after the processing trace, and the
worker loop proceeds to the remaining chunks. -/
theorem commit_attempted_despite_process_error (env : Env)
    (rs : List ConsumerRecord) (rest : List (List ConsumerRecord))
    (last_record : ConsumerRecord) (tpl : CommitTarget) (e : Err)
    (hmax : maxByOffset rs = some last_record)
    (hotc : env.offset_to_commit last_record = .ok tpl)
    (_hfail : (process env rs).2 = .error e) :
    dispatchChunk env rs = some ((process env rs).1 ++ [Call.commit tpl]) ∧
      runChunks env (rs :: rest) =
        (runChunks env rest).map
          (fun t2 => (process env rs).1 ++ [Call.commit tpl] ++ t2) := by
  have hd : dispatchChunk env rs = some ((process env rs).1 ++ [Call.commit tpl]) := by
    simp [dispatchChunk, hmax, hotc]
  refine ⟨hd, ?_⟩
  simp only [runChunks, hd]
  cases runChunks env rest <;> simp

/-- Witness for C1: under a failing storage collaborator, the one-record
batch at offset 10 errs, yet its commit attempt (offset 11) is recorded and
the loop goes on. -/
theorem commit_attempted_despite_process_error_witness :
    maxByOffset [recA] = some recA ∧
      storeFailEnv.offset_to_commit recA =
        .ok { topic := "t1", partition := 0, offset := 11 } ∧
      (process storeFailEnv [recA]).2 = .error "StoreError" ∧
      (dispatchChunk storeFailEnv [recA] =
          some ((process storeFailEnv [recA]).1 ++
            [Call.commit { topic := "t1", partition := 0, offset := 11 }]) ∧
        runChunks storeFailEnv ([recA] :: []) =
          (runChunks storeFailEnv []).map
            (fun t2 => (process storeFailEnv [recA]).1 ++
              [Call.commit { topic := "t1", partition := 0, offset := 11 }] ++ t2)) :=
  ⟨rfl, rfl, rfl,
    commit_attempted_despite_process_error storeFailEnv [recA] [] recA
      { topic := "t1", partition := 0, offset := 11 } "StoreError" rfl rfl rfl⟩

/-- C2: with `offset_to_commit` as modelled from the spec, the commit target
the worker computes for a non-empty batch has offset `1 +` the maximal
record offset in the batch: the record selected by `max_by_key` belongs to
the batch and dominates every offset in it, the target is its offset plus
one, and the chunk body commits exactly this target. -/
theorem commit_target_offset_succ_max (env : Env)
    (rs : List ConsumerRecord) (last_record : ConsumerRecord) (tpl : CommitTarget)
    (henv : env.offset_to_commit = ConsumerRecord.offset_to_commit)
    (hmax : maxByOffset rs = some last_record)
    (hotc : env.offset_to_commit last_record = .ok tpl) :
    tpl.offset = 1 + last_record.offset ∧
      last_record ∈ rs ∧
      (∀ r ∈ rs, r.offset ≤ last_record.offset) ∧
      dispatchChunk env rs = some ((process env rs).1 ++ [Call.commit tpl]) := by
  have h1 : tpl =
      { topic := last_record.topic
        partition := last_record.partition
        offset := last_record.offset + 1 } := by
    rw [henv] at hotc
    simp only [ConsumerRecord.offset_to_commit, Except.ok.injEq] at hotc
    exact hotc.symm
  refine ⟨?_, maxByOffset_mem hmax, maxByOffset_ge hmax, ?_⟩
  · rw [h1]
    exact Int.add_comm last_record.offset 1
  · simp [dispatchChunk, hmax, hotc]

/-- Witness for C2: the singleton batch at offset 10 yields commit target
offset 11 = 1 + 10. -/
theorem commit_target_offset_succ_max_witness :
    okEnv.offset_to_commit = ConsumerRecord.offset_to_commit ∧
      maxByOffset [recA] = some recA ∧
      okEnv.offset_to_commit recA =
        .ok { topic := "t1", partition := 0, offset := 11 } ∧
      (({ topic := "t1", partition := 0, offset := 11 } : CommitTarget).offset =
          1 + recA.offset ∧
        recA ∈ [recA] ∧
        (∀ r ∈ [recA], r.offset ≤ recA.offset) ∧
        dispatchChunk okEnv [recA] =
          some ((process okEnv [recA]).1 ++
            [Call.commit { topic := "t1", partition := 0, offset := 11 }])) :=
  ⟨rfl, rfl, rfl,
    commit_target_offset_succ_max okEnv [recA] recA
      { topic := "t1", partition := 0, offset := 11 } rfl rfl rfl⟩

/-- C3 as stated is false on the code: a tombstone record is not error-free
in general, because `deserialize` makes the provisioning and schema calls
before checking the payload — with a failing provisioning collaborator,
processing the one-record batch containing the tombstone returns that
error. -/
theorem tombstone_never_errors_counterexample :
    recTomb.payload = none ∧
      (process provisionFailEnv [recTomb]).2 = .error "ProvisioningError" :=
  ⟨rfl, rfl⟩

/-- C3 (amended): processing a tombstone record never calls the storage
collaborator, and provided the provisioning and schema-lookup calls for
its topic succeed, it raises no error and produces no event: the batch
containing just the tombstone completes successfully with only the
provisioning and schema-lookup calls in its trace. -/
theorem tombstone_skips_storage (env : Env) (cr : ConsumerRecord) (u : Unit)
    (s : Schema) (hp : cr.payload = none) :
    (∀ c ∈ (process env [cr]).1, c.isStore = false) ∧
      (env.create_stream_if_not_exists cr.topic StreamType.UserDefined.toString
          = .ok u →
        env.schema_raw cr.topic = .ok s →
        process env [cr] =
          ([Call.processBatch 1,
            Call.createStream cr.topic StreamType.UserDefined.toString,
            Call.schemaLookup cr.topic], .ok ())) := by
  constructor
  · intro c hc
    simp only [process, List.mem_cons] at hc
    rcases hc with rfl | hc
    · rfl
    · rcases deserialize_tombstone_res env cr hp with h | ⟨e, h⟩
      · simp only [processRecords, h, List.append_nil] at hc
        exact (deserialize_trace_forms env cr c hc).2
      · simp only [processRecords, h] at hc
        exact (deserialize_trace_forms env cr c hc).2
  · intro h1 h2
    have hd := deserialize_tombstone env cr u s h1 h2 hp
    simp [process, processRecords, hd]

/-- Witness for C3 (amended) on the all-success environment. -/
theorem tombstone_skips_storage_witness :
    recTomb.payload = none ∧
      ((∀ c ∈ (process okEnv [recTomb]).1, c.isStore = false) ∧
        (okEnv.create_stream_if_not_exists recTomb.topic
            StreamType.UserDefined.toString = .ok () →
          okEnv.schema_raw recTomb.topic = .ok 0 →
          process okEnv [recTomb] =
            ([Call.processBatch 1,
              Call.createStream recTomb.topic StreamType.UserDefined.toString,
              Call.schemaLookup recTomb.topic], .ok ()))) :=
  ⟨rfl, tombstone_skips_storage okEnv recTomb () 0 rfl⟩

/-- C4: fail-fast within one call of `Processor::process` — if the records
processed so far produced an error, no later record of the batch is
decoded, converted, or passed to the storage collaborator (the batch trace
is exactly the failing prefix's trace plus the entry marker), and
`process` returns that error as the batch result. -/
theorem process_fail_fast (env : Env) (pre post : List ConsumerRecord) (e : Err)
    (h : (processRecords env pre).2 = .error e) :
    (process env (pre ++ post)).1 =
        Call.processBatch (pre.length + post.length) :: (processRecords env pre).1 ∧
      (process env (pre ++ post)).2 = .error e := by
  have hff := processRecords_fail_fast env pre post e h
  constructor
  · simp [process, hff]
  · simp [process, hff, h]

/-- Witness for C4: with a failing store, the record after the failing one
contributes nothing and the batch result is the store error. -/
theorem process_fail_fast_witness :
    (processRecords storeFailEnv [recA]).2 = .error "StoreError" ∧
      ((process storeFailEnv ([recA] ++ [recB])).1 =
          Call.processBatch (1 + 1) :: (processRecords storeFailEnv [recA]).1 ∧
        (process storeFailEnv ([recA] ++ [recB])).2 = .error "StoreError") :=
  ⟨rfl, process_fail_fast storeFailEnv [recA] [recB] "StoreError" rfl⟩

/-- C5: a worker run that completes returns exactly the end-of-stream
hook's result — success unless `post_stream` errs — and the hook is
invoked exactly once, strictly after every dispatched batch's trace;
per-batch processing and commit errors never surface in the worker's
returned result. -/
theorem worker_result_is_post_stream_only (env : Env)
    (chunks : List (List ConsumerRecord)) (t : List Call) (r : Except Err Unit)
    (h : process_partition env chunks = some (t, r)) :
    r = env.post_stream ∧
      ∃ t0, t = t0 ++ [Call.postStream] ∧ Call.postStream ∉ t0 := by
  rcases hrc : runChunks env chunks with _ | tc
  · simp only [process_partition, hrc] at h
    exact Option.noConfusion h
  · simp only [process_partition, hrc, Option.some.injEq, Prod.mk.injEq] at h
    obtain ⟨ht, hr⟩ := h
    exact ⟨hr.symm, tc, ht.symm, runChunks_no_postStream env chunks tc hrc⟩

/-- Witness for C5 on a completed single-chunk run. -/
theorem worker_result_is_post_stream_only_witness :
    process_partition okEnv [[recA]] = some (traceA, .ok ()) ∧
      ((.ok () : Except Err Unit) = okEnv.post_stream ∧
        ∃ t0, traceA = t0 ++ [Call.postStream] ∧ Call.postStream ∉ t0) :=
  ⟨rfl, worker_result_is_post_stream_only okEnv [[recA]] traceA (.ok ()) rfl⟩

/-- C6: within one chunk body the broker commit attempt happens strictly
after `Processor::process` has returned for that same batch: the chunk
trace is exactly the whole batch-processing trace followed by the single
commit call, and no commit occurs anywhere inside the batch-processing
trace. -/
theorem commit_after_process_sequential (env : Env)
    (rs : List ConsumerRecord) (last_record : ConsumerRecord) (tpl : CommitTarget)
    (hmax : maxByOffset rs = some last_record)
    (hotc : env.offset_to_commit last_record = .ok tpl) :
    dispatchChunk env rs = some ((process env rs).1 ++ [Call.commit tpl]) ∧
      ∀ tpl2, Call.commit tpl2 ∉ (process env rs).1 := by
  refine ⟨by simp [dispatchChunk, hmax, hotc], ?_⟩
  intro tpl2
  exact process_no_commit env rs tpl2

/-- Witness for C6 on the singleton batch at offset 10. -/
theorem commit_after_process_sequential_witness :
    maxByOffset [recA] = some recA ∧
      okEnv.offset_to_commit recA =
        .ok { topic := "t1", partition := 0, offset := 11 } ∧
      (dispatchChunk okEnv [recA] =
          some ((process okEnv [recA]).1 ++
            [Call.commit { topic := "t1", partition := 0, offset := 11 }]) ∧
        ∀ tpl2, Call.commit tpl2 ∉ (process okEnv [recA]).1) :=
  ⟨rfl, rfl,
    commit_after_process_sequential okEnv [recA] recA
      { topic := "t1", partition := 0, offset := 11 } rfl rfl⟩

/-- C7: a record with a present payload that converts successfully yields an
event whose origin encoding is "json", origin size is the raw payload's
byte length, stream classification is user-defined, parse timestamp is the
current time, with no time-partition key and an empty custom-partition
mapping. -/
theorem event_metadata_fields (env : Env) (cr : ConsumerRecord)
    (p : Bytes) (t : List Call) (ev : PEvent)
    (hp : cr.payload = some p)
    (h : deserialize env cr = (t, .ok (some ev))) :
    ev.origin_format = "json" ∧ ev.origin_size = p.length ∧
      ev.stream_type = StreamType.UserDefined ∧
      ev.parsed_timestamp = env.now ∧
      ev.time_partition = none ∧
      ev.custom_partition_values = [] := by
  rcases h1 : env.create_stream_if_not_exists cr.topic StreamType.UserDefined.toString
    with e | u
  · rw [deserialize_provision_error env cr e h1] at h
    exact Except.noConfusion (congrArg Prod.snd h)
  · rcases h2 : env.schema_raw cr.topic with e | s
    · rw [deserialize_schema_error env cr u e h1 h2] at h
      exact Except.noConfusion (congrArg Prod.snd h)
    · rcases h3 : env.from_slice p with e | d
      · rw [deserialize_decode_error env cr u s p e h1 h2 hp h3] at h
        exact Except.noConfusion (congrArg Prod.snd h)
      · rcases h4 : env.into_recordbatch d s with e | rbf
        · rw [deserialize_convert_error env cr u s p d e h1 h2 hp h3 h4] at h
          exact Except.noConfusion (congrArg Prod.snd h)
        · obtain ⟨record_batch, is_first⟩ := rbf
          rw [deserialize_ok env cr u s p d record_batch is_first h1 h2 hp h3 h4] at h
          simp only [Prod.mk.injEq, Except.ok.injEq, Option.some.injEq] at h
          obtain ⟨ht, hev⟩ := h
          subst hev
          exact ⟨rfl, rfl, rfl, rfl, rfl, rfl⟩

/-- Witness for C7 on the successfully converted record at offset 10. -/
theorem event_metadata_fields_witness :
    recA.payload = some [49] ∧
      deserialize okEnv recA =
        ([Call.createStream "t1" "UserDefined", Call.schemaLookup "t1",
          Call.decode [49], Call.convert 7 0], .ok (some evA)) ∧
      (evA.origin_format = "json" ∧ evA.origin_size = ([49] : Bytes).length ∧
        evA.stream_type = StreamType.UserDefined ∧
        evA.parsed_timestamp = okEnv.now ∧
        evA.time_partition = none ∧
        evA.custom_partition_values = []) :=
  ⟨rfl, rfl,
    event_metadata_fields okEnv recA [49]
      [Call.createStream "t1" "UserDefined", Call.schemaLookup "t1",
       Call.decode [49], Call.convert 7 0] evA rfl rfl⟩

/-- C8: the provisioning create-if-absent call is issued exactly once per
record processed — a single record's `deserialize` always makes it exactly
once regardless of payload or outcome, and a batch whose `process`
succeeds makes exactly one such call per record: no caching of stream
existence across records. -/
theorem provision_once_per_record (env : Env) (cr : ConsumerRecord)
    (rs : List ConsumerRecord)
    (h : (processRecords env rs).2 = .ok ()) :
    (deserialize env cr).1.countP (fun c => c.isCreateStream) = 1 ∧
      (process env rs).1.countP (fun c => c.isCreateStream) = rs.length := by
  refine ⟨deserialize_countCreate env cr, ?_⟩
  simp only [process, List.countP_cons]
  rw [processRecords_ok_countCreate env rs h]
  simp [Call.isCreateStream]

/-- Witness for C8 on a two-record batch (one event record, one tombstone). -/
theorem provision_once_per_record_witness :
    (processRecords okEnv [recA, recTomb]).2 = .ok () ∧
      ((deserialize okEnv recA).1.countP (fun c => c.isCreateStream) = 1 ∧
        (process okEnv [recA, recTomb]).1.countP (fun c => c.isCreateStream) =
          ([recA, recTomb] : List ConsumerRecord).length) :=
  ⟨rfl, provision_once_per_record okEnv recA [recA, recTomb] rfl⟩

/-- C9: the worker computes the commit target by calling `offset_to_commit`
on the maximum-offset record and unwrapping the result; when that call
returns an error for some batch, the chunk body panics — the partition
task aborts with no result and no commit attempt recorded — instead of
logging a commit error and continuing the loop. -/
theorem offset_to_commit_error_panics (env : Env)
    (rs : List ConsumerRecord) (rest : List (List ConsumerRecord))
    (last_record : ConsumerRecord) (e : Err)
    (hmax : maxByOffset rs = some last_record)
    (hotc : env.offset_to_commit last_record = .error e) :
    dispatchChunk env rs = none ∧ process_partition env (rs :: rest) = none := by
  have hd : dispatchChunk env rs = none := by simp [dispatchChunk, hmax, hotc]
  refine ⟨hd, ?_⟩
  simp [process_partition, runChunks, hd]

/-- Witness for C9 with a failing `offset_to_commit`. -/
theorem offset_to_commit_error_panics_witness :
    maxByOffset [recA] = some recA ∧
      otcFailEnv.offset_to_commit recA = .error "KafkaError" ∧
      (dispatchChunk otcFailEnv [recA] = none ∧
        process_partition otcFailEnv ([recA] :: []) = none) :=
  ⟨rfl, rfl,
    offset_to_commit_error_panics otcFailEnv [recA] [] recA "KafkaError" rfl rfl⟩

/-- C10: a batch that arrives empty from the chunking stage is a complete
no-op: the `max_by_key` guard yields `none`, the chunk body records no
call at all — neither the `Processor::process` entry nor the broker
commit — and the chunk loop continues with the remaining chunks
unchanged. -/
theorem empty_chunk_noop (env : Env) (rest : List (List ConsumerRecord)) :
    dispatchChunk env [] = some [] ∧
      runChunks env ([] :: rest) = runChunks env rest := by
  have hd : dispatchChunk env ([] : List ConsumerRecord) = some [] := rfl
  refine ⟨hd, ?_⟩
  simp only [runChunks, hd]
  cases runChunks env rest <;> simp

end Parseable
